import Mathlib

/-!
# RevuMe frontend — verification of the client-side data/session/view-state layer

Shallow embedding of the RevuMe React frontend (`frontend/src/App.jsx` and the
API wrapper `frontend/src/api.js`).  JavaScript strings are modelled as Lean
`String`s over their character data (ASCII case mapping stands in for
`String.prototype.toLowerCase`, which agrees on all inputs appearing here).
Fields that may be `undefined` in JavaScript are modelled as `Option`s;
`x || ""` becomes `Option.getD · ""`.  Platform built-ins (`fetch` outcomes,
`JSON.parse`, `localeCompare`, timers, the readiness probe) are modelled as
explicit oracle parameters; everything else is translated from the source.
-/

namespace RevuMe

/-! ## JavaScript string primitives -/

/-- Model of `String.prototype.toLowerCase` (ASCII case mapping). -/
def jsToLower (s : String) : String := ⟨s.data.map Char.toLower⟩

/-- Characters matched by the JavaScript regex class `\s` (ASCII part). -/
def jsWs (c : Char) : Bool :=
  c == ' ' || c == '\t' || c == '\n' || c == '\r' || c == '\x0b' || c == '\x0c'

/-- Model of `String.prototype.trim`. -/
def jsTrim (s : String) : String :=
  ⟨((s.data.dropWhile jsWs).reverse.dropWhile jsWs).reverse⟩

/-- Split a character list at every occurrence of `sep`
(model of `String.prototype.split` with a one-character separator:
`"".split(",") = [""]`, `"a,,b".split(",") = ["a","","b"]`). -/
def splitOnChar (sep : Char) : List Char → List (List Char)
  | [] => [[]]
  | c :: t =>
    if c = sep then [] :: splitOnChar sep t
    else
      match splitOnChar sep t with
      | [] => [[c]]
      | h :: r => (c :: h) :: r

/-- Model of `s.split(",")`. -/
def jsSplitComma (s : String) : List String :=
  (splitOnChar ',' s.data).map (fun l => ⟨l⟩)

/-- `needle` occurs as a contiguous sublist of the haystack
(model of `String.prototype.includes` on character data). -/
def isSubList (needle : List Char) : List Char → Bool
  | [] => needle.isEmpty
  | c :: t => needle.isPrefixOf (c :: t) || isSubList needle t

/-- Model of `hay.includes(needle)`. -/
def jsIncludes (hay needle : String) : Bool := isSubList needle.data hay.data

/-! ## Review data model

A `Review` record as consumed by `App.jsx`.  Fields absent from the JSON object
(`undefined` in JavaScript) are `none`; the code only ever reads them through
truthiness coercions such as `r.title || ""`. -/

structure Review where
  id : String
  title : Option String := none
  type : Option String := none
  category : Option String := none
  rating : Option Int := none
  address : Option String := none
  website : Option String := none
  date : Option String := none
  notes : Option String := none
  updated : Option String := none
  created : Option String := none
  deriving DecidableEq, Repr

/-- `x || ""` on a possibly-undefined string field. -/
def orEmpty (o : Option String) : String := o.getD ""

/-- `x || 0` on a possibly-undefined rating (0 is falsy, so it maps to 0). -/
def orZero (o : Option Int) : Int := o.getD 0

/-! ## Collection View Engine: derived `categories` view (App.jsx 334–344)

```js
const categories = useMemo(() => {
  const s = new Set();
  rows.forEach(r =>
    (r.category || "").split(",").map(x => x.trim()).filter(Boolean).forEach(c => s.add(c)));
  return Array.from(s).sort((a, b) => a.localeCompare(b));
}, [rows]);
```
`localeCompare` is locale-dependent; it is modelled as an oracle
`lc : String → String → Int`.  A JavaScript `Set` iterates in insertion order
and deduplicates by string equality. -/

/-- `(r.category || "").split(",").map(x => x.trim()).filter(Boolean)`. -/
def catTokens (r : Review) : List String :=
  ((jsSplitComma (orEmpty r.category)).map jsTrim).filter (fun s => !s.isEmpty)

/-- Insertion-order deduplication, as performed by a JavaScript `Set`. -/
def dedupKeepFirst (l : List String) : List String :=
  l.foldl (fun acc c => if c ∈ acc then acc else acc ++ [c]) []

/-- The sort relation induced by the comparator `(a, b) => lc(a, b)`. -/
def lcRel (lc : String → String → Int) (a b : String) : Prop := lc a b ≤ 0

instance (lc : String → String → Int) : DecidableRel (lcRel lc) :=
  fun a b => inferInstanceAs (Decidable (lc a b ≤ 0))

/-- The derived `categories` view. -/
def categories (lc : String → String → Int) (rows : List Review) : List String :=
  List.insertionSort (lcRel lc) (dedupKeepFirst (rows.flatMap catTokens))

/-! ## Collection View Engine: derived `filtered` view (App.jsx 346–368) -/

/-- The search blob
`` `${r.title||""} ${r.notes||""} ${r.address||""} ${r.category||""} ${r.website||""}`.toLowerCase() ``. -/
def searchBlob (r : Review) : String :=
  jsToLower (orEmpty r.title ++ " " ++ orEmpty r.notes ++ " " ++ orEmpty r.address
    ++ " " ++ orEmpty r.category ++ " " ++ orEmpty r.website)

/-- The filter predicate of the `filtered` memo: `okTerm && okType && okCat`. -/
def passesFilter (term type activeCat : String) (r : Review) : Bool :=
  let t := jsToLower term
  let okTerm := if t = "" then true else jsIncludes (searchBlob r) t
  let okType := if type = "" then true else decide (r.type = some type)
  let okCat := if activeCat = "" then true else
    (((jsSplitComma (jsToLower (orEmpty r.category))).map jsTrim)).contains (jsToLower activeCat)
  okTerm && okType && okCat

/-- The comparator passed to `out.sort` in the `filtered` memo,
with `localeCompare` abstracted as `lc`. -/
def sortCmp (lc : String → String → Int) (sortBy : String) (a b : Review) : Int :=
  if sortBy = "rating" then orZero b.rating - orZero a.rating
  else if sortBy = "title" then lc (orEmpty a.title) (orEmpty b.title)
  else if sortBy = "date" then lc (orEmpty b.date) (orEmpty a.date)
  else lc (orEmpty b.updated) (orEmpty a.updated)

/-- The ordering relation induced by the sort comparator. -/
def sortRel (lc : String → String → Int) (sortBy : String) (a b : Review) : Prop :=
  sortCmp lc sortBy a b ≤ 0

instance (lc : String → String → Int) (sortBy : String) :
    DecidableRel (sortRel lc sortBy) :=
  fun a b => inferInstanceAs (Decidable (sortCmp lc sortBy a b ≤ 0))

/-- The derived `filtered` view: filter then sort (a sort is a permutation,
so every claim proved here is independent of the particular stable sort used). -/
def filtered (lc : String → String → Int) (term type sortBy activeCat : String)
    (rows : List Review) : List Review :=
  List.insertionSort (sortRel lc sortBy) (rows.filter (passesFilter term type activeCat))

/-- A concrete stand-in comparator for `localeCompare`, used to instantiate
counterexamples whose content does not depend on the comparator. -/
def lcDefault (a b : String) : Int :=
  match compare a b with
  | .lt => -1
  | .eq => 0
  | .gt => 1

/-! ## Basic facts about the string primitives -/

theorem isPrefixOf_iff (n : List Char) : ∀ h : List Char,
    n.isPrefixOf h = true ↔ ∃ post, h = n ++ post := by
  induction n with
  | nil =>
    intro h
    simp [List.isPrefixOf]
  | cons a n ih =>
    intro h
    cases h with
    | nil => simp [List.isPrefixOf]
    | cons c t =>
      simp only [List.isPrefixOf, Bool.and_eq_true, beq_iff_eq, ih t]
      constructor
      · rintro ⟨rfl, post, rfl⟩
        exact ⟨post, rfl⟩
      · rintro ⟨post, hpost⟩
        cases hpost
        exact ⟨rfl, post, rfl⟩

theorem isSubList_iff (n : List Char) : ∀ h : List Char,
    isSubList n h = true ↔ ∃ pre post, h = pre ++ n ++ post := by
  intro h
  induction h with
  | nil =>
    simp only [isSubList, List.isEmpty_iff]
    constructor
    · rintro rfl; exact ⟨[], [], rfl⟩
    · rintro ⟨pre, post, hp⟩
      rcases List.append_eq_nil.mp hp.symm with ⟨h1, h2⟩
      exact (List.append_eq_nil.mp h1).2
  | cons c t ih =>
    simp only [isSubList, Bool.or_eq_true, isPrefixOf_iff, ih]
    constructor
    · rintro (⟨post, hp⟩ | ⟨pre, post, hp⟩)
      · exact ⟨[], post, by simpa using hp⟩
      · exact ⟨c :: pre, post, by simp [hp]⟩
    · rintro ⟨pre, post, hp⟩
      cases pre with
      | nil => exact Or.inl ⟨post, by simpa using hp⟩
      | cons p ps =>
        right
        have : c = p ∧ t = ps ++ n ++ post := by
          simpa using hp
        exact ⟨ps, post, this.2⟩

theorem jsIncludes_of_decomp (hay needle a b : String)
    (h : hay.data = a.data ++ needle.data ++ b.data) :
    jsIncludes hay needle = true := by
  unfold jsIncludes
  exact (isSubList_iff needle.data hay.data).mpr ⟨a.data, b.data, h⟩

theorem string_data_append (a b : String) : (a ++ b).data = a.data ++ b.data := rfl

theorem jsToLower_eq_empty_iff (s : String) : jsToLower s = "" ↔ s = "" := by
  unfold jsToLower
  constructor
  · intro h
    have : s.data.map Char.toLower = [] := congrArg String.data h
    have hd : s.data = [] := List.map_eq_nil_iff.mp this
    cases s with
    | mk d => cases hd; rfl
  · rintro rfl; rfl


/-! ## Membership lemmas for the derived views -/

theorem mem_dedup_foldl (l : List String) : ∀ (acc : List String) (x : String),
    x ∈ l.foldl (fun acc c => if c ∈ acc then acc else acc ++ [c]) acc ↔
      x ∈ acc ∨ x ∈ l := by
  induction l with
  | nil => intro acc x; simp
  | cons c t ih =>
    intro acc x
    rw [List.foldl_cons, ih]
    by_cases hc : c ∈ acc
    · simp only [if_pos hc, List.mem_cons]
      constructor
      · rintro (h | h)
        · exact Or.inl h
        · exact Or.inr (Or.inr h)
      · rintro (h | rfl | h)
        · exact Or.inl h
        · exact Or.inl hc
        · exact Or.inr h
    · simp only [if_neg hc, List.mem_append, List.mem_singleton, List.mem_cons]
      tauto

theorem mem_dedupKeepFirst (l : List String) (x : String) :
    x ∈ dedupKeepFirst l ↔ x ∈ l := by
  rw [dedupKeepFirst, mem_dedup_foldl]
  simp

theorem mem_categories (lc : String → String → Int) (rows : List Review) (c : String) :
    c ∈ categories lc rows ↔ ∃ r ∈ rows, c ∈ catTokens r := by
  rw [categories, List.mem_insertionSort, mem_dedupKeepFirst, List.mem_flatMap]

/-! ## Example reviews used by concrete instances -/

/-- First example review of the spec's category-derivation scenario. -/
def revCoffeeBrunch : Review := { id := "1", category := some "Coffee, Brunch" }

/-- Second example review of the spec's category-derivation scenario. -/
def revBrunchDessert : Review := { id := "2", category := some "brunch, Dessert" }

/-- A review whose single category token is `"Coffee"`. -/
def reviewCoffee : Review :=
  { id := "3", title := some "Cafe", type := some "place",
    category := some "Coffee", rating := some 4 }

/-! ## Claim-side predicate for C1 (written from the spec's words, for
comparison with the code's behaviour)

The claim says a review shown under a non-empty `categoryFilter` has the filter
**among its trimmed, lowercased comma-split category tokens**. -/

/-- The review's trimmed, lowercased comma-split category tokens,
exactly as the claim phrases them. -/
def specCatTokens (r : Review) : List String :=
  ((jsSplitComma (orEmpty r.category)).map jsTrim).map jsToLower

/-- Claim C1's category predicate, verbatim: the filter itself is among the
trimmed, lowercased tokens. -/
def specCatPred (activeCat : String) (r : Review) : Prop :=
  activeCat = "" ∨ activeCat ∈ specCatTokens r

/-! ## Claim C1 -/

/-- C1 counterexample: with `categoryFilter = "Coffee"` the review whose only
category token is `"Coffee"` IS in the filtered list, yet the filter is NOT
among the review's trimmed, lowercased tokens (those are `["coffee"]`): the
code lowercases the filter before the membership test, the claim does not. -/
theorem C1_counterexample :
    reviewCoffee ∈ filtered lcDefault "" "" "updated" "Coffee" [reviewCoffee] ∧
    ¬ specCatPred "Coffee" reviewCoffee := by
  constructor
  · decide
  · rw [specCatPred]
    decide

/-- C1 (amended): every element of the filtered+sorted list belongs to `R` and
satisfies the three predicates, where the category predicate compares the
**lowercased** `categoryFilter` with the review's lowercased, trimmed,
comma-split tokens (as the code does). -/
theorem C1_filtered_subset_and_predicates
    (lc : String → String → Int) (term type sortBy activeCat : String)
    (rows : List Review) (r : Review)
    (h : r ∈ filtered lc term type sortBy activeCat rows) :
    r ∈ rows ∧
    (term = "" ∨ jsIncludes (searchBlob r) (jsToLower term) = true) ∧
    (type = "" ∨ r.type = some type) ∧
    (activeCat = "" ∨
      jsToLower activeCat ∈ (jsSplitComma (jsToLower (orEmpty r.category))).map jsTrim) := by
  rw [filtered, List.mem_insertionSort, List.mem_filter] at h
  obtain ⟨hmem, hp⟩ := h
  simp only [passesFilter, Bool.and_eq_true] at hp
  obtain ⟨⟨hterm, htype⟩, hcat⟩ := hp
  refine ⟨hmem, ?_, ?_, ?_⟩
  · by_cases ht : term = ""
    · exact Or.inl ht
    · rw [if_neg (fun hh => ht ((jsToLower_eq_empty_iff term).mp hh))] at hterm
      exact Or.inr hterm
  · by_cases ht : type = ""
    · exact Or.inl ht
    · rw [if_neg ht] at htype
      exact Or.inr (of_decide_eq_true htype)
  · by_cases ht : activeCat = ""
    · exact Or.inl ht
    · rw [if_neg ht] at hcat
      exact Or.inr (by simpa using hcat)

/-- C1 witness: the amended theorem applied at a concrete input. -/
theorem C1_witness :
    reviewCoffee ∈ [reviewCoffee] ∧
    (("cafe" : String) = "" ∨ jsIncludes (searchBlob reviewCoffee) (jsToLower "cafe") = true) ∧
    (("place" : String) = "" ∨ reviewCoffee.type = some "place") ∧
    (("coffee" : String) = "" ∨
      jsToLower "coffee" ∈
        (jsSplitComma (jsToLower (orEmpty reviewCoffee.category))).map jsTrim) :=
  C1_filtered_subset_and_predicates lcDefault "cafe" "place" "rating" "coffee"
    [reviewCoffee] reviewCoffee (by decide)

/-! ## Claim C2 -/

/-- C2 counterexample: for the two example reviews the derived view contains
`"brunch"` (a JavaScript `Set` deduplicates case-sensitively, so `"Brunch"` and
`"brunch"` are distinct), so the derived set is not `{Brunch, Coffee, Dessert}`. -/
theorem C2_counterexample :
    "brunch" ∈ categories lcDefault [revCoffeeBrunch, revBrunchDessert] ∧
    "brunch" ∉ (["Brunch", "Coffee", "Dessert"] : List String) := by
  constructor
  · decide
  · decide

/-- C2 (amended): the derived Categories view consists of the distinct
comma-split, trimmed, non-empty category tokens compared **case-sensitively**
(no case folding), sorted by the locale comparator; the example collection with
category strings "Coffee, Brunch" and "brunch, Dessert" therefore derives the
four categories Coffee, Brunch, brunch, Dessert. -/
theorem C2_categories_characterization :
    (∀ (lc : String → String → Int) (rows : List Review) (c : String),
        c ∈ categories lc rows ↔ ∃ r ∈ rows, c ∈ catTokens r) ∧
    (∀ lc : String → String → Int,
        (categories lc [revCoffeeBrunch, revBrunchDessert]).length = 4 ∧
        ∀ c, c ∈ categories lc [revCoffeeBrunch, revBrunchDessert] ↔
          c ∈ (["Coffee", "Brunch", "brunch", "Dessert"] : List String)) := by
  refine ⟨mem_categories, fun lc => ⟨?_, fun c => ?_⟩⟩
  · rw [categories, List.length_insertionSort]
    decide
  · rw [categories, List.mem_insertionSort]
    have hd : dedupKeepFirst ([revCoffeeBrunch, revBrunchDessert].flatMap catTokens)
        = ["Coffee", "Brunch", "brunch", "Dessert"] := by decide
    rw [hd]

/-- C2 witness: the amended characterization applied at a concrete input. -/
theorem C2_witness :
    "Dessert" ∈ categories lcDefault [revCoffeeBrunch, revBrunchDessert] :=
  (C2_categories_characterization.1 lcDefault [revCoffeeBrunch, revBrunchDessert]
    "Dessert").mpr ⟨revBrunchDessert, by decide, by decide⟩

/-! ## Errors thrown by the Remote Store Client (api.js)

On `!res.ok` the wrapper throws
`new Error(`HTTP ${res.status} ${res.statusText} - ${text}`)`; transport
failures surface as the platform's `TypeError` with its own message. -/

/-- A JavaScript error reaching a catch block: either the wrapper's HTTP error
or a platform error (e.g. a network `TypeError`) with a name and message. -/
inductive JsError where
  | httpErr (status : Nat) (statusText bodyText : String)
  | jsErr (name message : String)
  deriving DecidableEq, Repr

/-- `String(err?.message ?? "")`. -/
def errMessage : JsError → String
  | .httpErr status statusText bodyText =>
      "HTTP " ++ toString status ++ " " ++ statusText ++ " - " ++ bodyText
  | .jsErr _ message => message

/-- `err?.name` (an `Error` constructed by the wrapper has name `"Error"`). -/
def errName : JsError → String
  | .httpErr _ _ _ => "Error"
  | .jsErr name _ => name

/-- `const STARTUP_ERROR_CODES = ["502", "503", "504", "522", "524"]`. -/
def STARTUP_ERROR_CODES : List String := ["502", "503", "504", "522", "524"]

/-- `isLikelyBootingError` (App.jsx 21–34).  The argument is `none` when the
JavaScript value is falsy (`null`/`undefined`). -/
def isLikelyBootingError : Option JsError → Bool
  | none => false
  | some error =>
    let message := jsToLower (errMessage error)
    if message = "" then false
    else if errName error = "TypeError" then true
    else if jsIncludes message "failed to fetch" || jsIncludes message "network"
        || jsIncludes message "timeout" then true
    else STARTUP_ERROR_CODES.any fun code => jsIncludes message ("http " ++ code)

/-! ## Application state

The `useState`/`useRef` cells of `App` plus the durable storage mirrored by
`setAuthToken`/`storeUser` (api.js / App.jsx).  The editor seed (`{}` or a
review) is irrelevant to every claim below, so `editing` only records whether
the editor is open. -/

/-- Availability State: enum {idle, booting, ready, error}. -/
inductive ApiStatus where
  | idle
  | booting
  | ready
  | error
  deriving DecidableEq, Repr

/-- A JavaScript value that can reach the error display (`setAuthError`): a
string, the raw `detail[0]` object taken unconverted from a `detail` array
(App.jsx 284 falls back to `parsed.detail[0]` itself when its `msg` is falsy),
or `undefined`. -/
inductive JsTextVal where
  | str (s : String)
  | rawObj (msg : String)
  | undef
  deriving DecidableEq, Repr

/-- JavaScript truthiness of such a value: `""` and `undefined` are falsy,
every non-empty string and every object is truthy. -/
def jsTruthy : JsTextVal → Bool
  | .str s => decide (s ≠ "")
  | .rawObj _ => true
  | .undef => false

structure AppState where
  token : String := ""
  storedToken : String := ""
  user : Option String := none
  storedUser : Option String := none
  rows : List Review := []
  term : String := ""
  type : String := ""
  sortBy : String := "updated"
  activeCat : String := ""
  editing : Option Unit := none
  viewing : Option Review := none
  authMode : String := "login"
  authFormEmail : String := ""
  authFormPassword : String := ""
  authError : JsTextVal := .str ""
  authBusy : Bool := false
  apiStatus : ApiStatus := .idle
  apiCheckInFlight : Bool := false
  refreshRetryPending : Bool := false
  deriving DecidableEq, Repr

/-- A successful login/register response `{token, user}`; either field may be
missing or falsy (`token = ""`, `user = none`). -/
structure AuthResult where
  token : String := ""
  user : Option String := none
  deriving DecidableEq, Repr

/-- `applyAuth` (App.jsx 107–128): store a complete session, otherwise tear
everything down (memory and durable storage, collection, editor, criteria,
availability). -/
def applyAuth (result : Option AuthResult) (s : AppState) : AppState :=
  match result with
  | some r =>
    if !r.token.isEmpty && r.user.isSome then
      { s with token := r.token, storedToken := r.token,
               user := r.user, storedUser := r.user, apiStatus := .ready }
    else
      { s with token := "", storedToken := "", user := none, storedUser := none,
               rows := [], editing := none, term := "", type := "",
               sortBy := "updated", activeCat := "", viewing := none,
               apiStatus := .idle }
  | none =>
      { s with token := "", storedToken := "", user := none, storedUser := none,
               rows := [], editing := none, term := "", type := "",
               sortBy := "updated", activeCat := "", viewing := none,
               apiStatus := .idle }

/-! ## Availability Prober (`waitForApi`, App.jsx 149–170)

`checkApiReady` results are supplied by an oracle `probes : Nat → Bool`
(`probes k` is the outcome of the k-th zero-auth probe of this sequence);
`setTimeout` delays are recorded in the trace. -/

/-- Outcome of the probe loop: final result, number of probe calls made, and
the delays slept after each failed attempt. -/
structure LoopOut where
  ok : Bool
  attempts : Nat
  delays : List Nat
  deriving DecidableEq, Repr

/-- The `for (let attempt = 0; attempt < attempts; attempt++)` loop body. -/
def waitLoop (probes : Nat → Bool) : Nat → Nat → LoopOut
  | _, 0 => ⟨false, 0, []⟩
  | attempt, fuel + 1 =>
    if probes attempt then ⟨true, 1, []⟩
    else
      let d := if attempt < 3 then 1000 else 1500
      let rest := waitLoop probes (attempt + 1) fuel
      ⟨rest.ok, rest.attempts + 1, d :: rest.delays⟩

/-- Result of one `waitForApi()` call: whether it newly reported ready, the
probe-loop trace, the statuses it set (in order), and the final status. -/
structure WaitResult where
  newlyReady : Bool
  attempts : Nat
  delays : List Nat
  statusSets : List ApiStatus
  finalStatus : ApiStatus
  deriving DecidableEq, Repr

/-- `waitForApi` (App.jsx 149–170).  The single-flight guard returns `false`
immediately (no status change, no probe) when a sequence is already in flight;
otherwise the sequence enters `booting`, makes up to 12 attempts and ends in
`ready` (success) or `error` (exhaustion). -/
def waitForApi (inFlight : Bool) (status : ApiStatus) (probes : Nat → Bool) : WaitResult :=
  if inFlight then ⟨false, 0, [], [], status⟩
  else
    let out := waitLoop probes 0 12
    let fin : ApiStatus := if out.ok then .ready else .error
    ⟨out.ok, out.attempts, out.delays, [.booting, fin], fin⟩

/-! ## Payload of `listReviews`

`refresh` guards with `Array.isArray(data)`; any non-array JSON/text payload is
collapsed into one constructor since the code treats them all alike. -/

inductive ListPayload where
  | arr (rows : List Review)
  | notArray
  deriving DecidableEq, Repr

/-- Effects performed by an operation, beyond the state transition. -/
structure EffectTrace where
  teardown : Bool := false
  proberEngaged : Bool := false
  retryScheduled : Bool := false
  errorLogged : Bool := false
  deriving DecidableEq, Repr

/-- `refresh` (App.jsx 192–225).  `outcome` is the settled `listReviews()`
promise; the retry timer is recorded as `refreshRetryPending` plus the
`retryScheduled` effect (the previous timer is cleared first, so at most one
is ever pending). -/
def refresh (s : AppState) (outcome : Except JsError ListPayload)
    (probes : Nat → Bool) : AppState × EffectTrace :=
  if s.token = "" then
    ({ s with rows := [], viewing := none, apiStatus := .idle }, {})
  else
    match outcome with
    | .ok data =>
      ({ s with rows := (match data with | .arr l => l | .notArray => []),
                apiStatus := .ready }, {})
    | .error err =>
      let message := errMessage err
      if jsIncludes message "401" then
        (applyAuth none s, { teardown := true })
      else if isLikelyBootingError (some err) then
        let w := waitForApi s.apiCheckInFlight s.apiStatus probes
        let s1 := { s with apiStatus := w.finalStatus }
        if w.newlyReady && !s.token.isEmpty then
          ({ s1 with refreshRetryPending := true },
           { proberEngaged := true, retryScheduled := true })
        else
          (s1, { proberEngaged := true })
      else
        ({ s with apiStatus := .error }, { errorLogged := true })

/-- `handleLogout` (App.jsx 302–310): the remote call's failure is only
warned about; the `finally` block applies `applyAuth(null)` in both cases. -/
def handleLogout (outcome : Except JsError Unit) (s : AppState) : AppState :=
  match outcome with
  | .ok _ => applyAuth none s
  | .error _ => applyAuth none s

/-! ## Error-message derivation in `handleAuthSubmit` (App.jsx 276–296)

`JSON.parse` is a platform built-in, modelled as an oracle
`parse : String → Option DetailVal`: `parse m = some v` means parsing `m`
succeeded with a truthy `detail` field described by `v`; `none` covers parse
failure, absence of `detail`, and falsy `detail`. -/

/-- The shape of a `detail` array element: a `{msg}` object or a plain value. -/
inductive DetailItem where
  | obj (msg : String)
  | str (s : String)
  deriving DecidableEq, Repr

/-- The shape of a truthy `detail` member. -/
inductive DetailVal where
  | str (s : String)
  | arr (items : List DetailItem)
  deriving DecidableEq, Repr

/-- The value of `detail` after the parse block:
`Array.isArray(parsed.detail) ? parsed.detail[0]?.msg || parsed.detail[0] : parsed.detail`.
`none` (parse failure, no `detail`, falsy `detail`) leaves the initial `""`.
An empty array gives `undefined || undefined = undefined`; an array headed by
a `{msg}` object gives its `msg` when truthy and otherwise falls back to the
RAW OBJECT itself (which is truthy and is surfaced unconverted by
`setAuthError`); an array headed by a plain value gives that value
(`?.msg` on it is `undefined`). -/
def detailValue : Option DetailVal → JsTextVal
  | none => .str ""
  | some (.str s) => .str s
  | some (.arr []) => .undef
  | some (.arr (.obj m :: _)) => if m = "" then .rawObj m else .str m
  | some (.arr (.str s :: _)) => .str s

/-- `'\x7b'`, the opening curly brace character. -/
def braceChar : Char := Char.ofNat 123

/-- `message.slice(message.indexOf("\x7b"))` when the brace exists. -/
def firstBraceSuffix : List Char → Option (List Char)
  | [] => none
  | c :: t => if c == braceChar then some (c :: t) else firstBraceSuffix t

/-- The `detail` extraction of the catch block (App.jsx 278–289). -/
def extractDetail (parse : String → Option DetailVal) (message : String) : JsTextVal :=
  match firstBraceSuffix message.data with
  | none => .str ""
  | some rest => detailValue (parse ⟨rest⟩)

/-! ### The prefix-stripping regex

`message.replace(/^HTTP\\s+\\d+\\s+[A-Za-z ]+\\s+-\\s*` `/i, "")`.  The regex's `-`
literal is the only element that can consume a `-`, so a match (anchored at the
start) exists iff the segment between the case-insensitive `HTTP` head and the
FIRST `-` of the rest decomposes as `\\s+ \\d+ \\s+ [A-Za-z ]+ \\s+`; the match
then extends greedily over `\\s*` after that `-`.  `plusThen p k` decides
whether the input splits as a non-empty run of `p`-characters followed by a
list accepted by `k` (the backtracking of `+`). -/

/-- Characters of the regex class `[A-Za-z ]` (ASCII letters or space). -/
def httpClassChar (c : Char) : Bool := c.isAlpha || c == ' '

/-- `p+` followed by a continuation, with backtracking. -/
def plusThen (p : Char → Bool) (k : List Char → Bool) : List Char → Bool
  | [] => false
  | c :: rest => p c && (k rest || plusThen p k rest)

/-- Does a list match `\\s+\\d+\\s+[A-Za-z ]+\\s+` exactly? -/
def matchesStatusSeg (l : List Char) : Bool :=
  plusThen jsWs
    (plusThen Char.isDigit
      (plusThen jsWs
        (plusThen httpClassChar
          (plusThen jsWs List.isEmpty)))) l

/-- The replacement on character data: drop the matched head when the regex
matches at the start, keep the input otherwise. -/
def stripHttpHeadList (l : List Char) : List Char :=
  match l with
  | h :: t1 :: t2 :: p :: rest =>
    if (h.toLower == 'h') && (t1.toLower == 't') && (t2.toLower == 't')
        && (p.toLower == 'p') && rest.contains '-'
        && matchesStatusSeg (rest.takeWhile (fun c => !(c == '-'))) then
      ((rest.dropWhile (fun c => !(c == '-'))).tail).dropWhile jsWs
    else l
  | _ => l

/-- `message.replace(/^HTTP\\s+\\d+\\s+[A-Za-z ]+\\s+-\\s*` `/i, "")`. -/
def stripHttpHead (message : String) : String :=
  ⟨stripHttpHeadList message.data⟩

/-- The apostrophe character, as a string. -/
def apos : String := ⟨[Char.ofNat 39]⟩

/-- The warming-up banner text set on a cold-start auth failure. -/
def warmingMessage : String :=
  "Warming up the RevuMe servers... this can take up to a minute if they"
    ++ apos ++ "ve been idle."

/-- `handleAuthSubmit` (App.jsx 259–300).  `outcome` is the settled
login/register call (which of the two was invoked only selects the endpoint);
`parse` and `probes` are the platform oracles.  The catch block never schedules
a retry of the auth operation: it only fires `waitForApi()` and sets the
warming message. -/
def handleAuthSubmit (s : AppState) (outcome : Except JsError AuthResult)
    (parse : String → Option DetailVal) (probes : Nat → Bool) :
    AppState × EffectTrace :=
  let email := jsToLower (jsTrim s.authFormEmail)
  let password := s.authFormPassword
  if email = "" ∨ password = "" then
    ({ s with authError := .str "Email and password are required." }, {})
  else
    match outcome with
    | .ok response =>
      let s1 := applyAuth (some response) { s with authError := .str "" }
      ({ s1 with authFormEmail := "", authFormPassword := "", authBusy := false }, {})
    | .error err =>
      let message := errMessage err
      let detail := extractDetail parse message
      let cleaned := if jsTruthy detail then detail
        else .str (jsTrim (stripHttpHead message))
      if isLikelyBootingError (some err) then
        let w := waitForApi s.apiCheckInFlight s.apiStatus probes
        ({ s with authError := .str warmingMessage, apiStatus := w.finalStatus,
                  authBusy := false },
         { proberEngaged := true })
      else
        ({ s with authError := if jsTruthy cleaned then cleaned
                    else .str "Unable to process request.",
                  authBusy := false }, {})

/-! ## Prober loop lemmas -/

theorem waitLoop_attempts_le (probes : Nat → Bool) :
    ∀ (fuel a : Nat), (waitLoop probes a fuel).attempts ≤ fuel := by
  intro fuel
  induction fuel with
  | zero => intro a; simp [waitLoop]
  | succ n ih =>
    intro a
    by_cases h : probes a = true
    · simp [waitLoop, h]
    · simp only [waitLoop, Bool.not_eq_true] at h ⊢
      rw [if_neg (by simp [h])]
      have := ih (a + 1)
      simpa using Nat.succ_le_succ this

theorem waitLoop_all_fail (probes : Nat → Bool) :
    ∀ (fuel a : Nat), (∀ i, i < fuel → probes (a + i) = false) →
      (waitLoop probes a fuel).ok = false ∧ (waitLoop probes a fuel).attempts = fuel := by
  intro fuel
  induction fuel with
  | zero => intro a _; simp [waitLoop]
  | succ n ih =>
    intro a hall
    have h0 : probes a = false := by simpa using hall 0 (Nat.succ_pos n)
    have hrest : ∀ i, i < n → probes (a + 1 + i) = false := by
      intro i hi
      have := hall (i + 1) (by omega)
      have harr : a + (i + 1) = a + 1 + i := by omega
      rwa [harr] at this
    have := ih (a + 1) hrest
    simp only [waitLoop]
    rw [if_neg (by simp [h0])]
    simpa using this

theorem waitLoop_first_success (probes : Nat → Bool) :
    ∀ (fuel a k : Nat), k < fuel → probes (a + k) = true →
      (∀ j, j < k → probes (a + j) = false) →
      (waitLoop probes a fuel).ok = true ∧ (waitLoop probes a fuel).attempts = k + 1 := by
  intro fuel
  induction fuel with
  | zero => intro a k hk; omega
  | succ n ih =>
    intro a k hk hsucc hfail
    by_cases hp : probes a = true
    · cases k with
      | zero => simp [waitLoop, hp]
      | succ k0 =>
        have := hfail 0 (Nat.succ_pos k0)
        simp only [Nat.add_zero] at this
        rw [this] at hp
        cases hp
    · cases k with
      | zero =>
        rw [Nat.add_zero] at hsucc
        rw [hsucc] at hp
        cases hp rfl
      | succ k0 =>
        have hsucc1 : probes (a + 1 + k0) = true := by
          have harr : a + (k0 + 1) = a + 1 + k0 := by omega
          rwa [harr] at hsucc
        have hfail1 : ∀ j, j < k0 → probes (a + 1 + j) = false := by
          intro j hj
          have := hfail (j + 1) (by omega)
          have harr : a + (j + 1) = a + 1 + j := by omega
          rwa [harr] at this
        have := ih (a + 1) k0 (by omega) hsucc1 hfail1
        simp only [waitLoop]
        rw [if_neg (by simp [Bool.not_eq_true] at hp; simp [hp])]
        simpa using this

theorem waitLoop_delays_get (probes : Nat → Bool) :
    ∀ (fuel a k d : Nat), ((waitLoop probes a fuel).delays.get? k = some d) →
      d = if a + k < 3 then 1000 else 1500 := by
  intro fuel
  induction fuel with
  | zero => intro a k d h; simp [waitLoop] at h
  | succ n ih =>
    intro a k d h
    by_cases hp : probes a = true
    · simp [waitLoop, hp] at h
    · simp only [waitLoop] at h
      rw [if_neg (by simp [Bool.not_eq_true] at hp; simp [hp])] at h
      cases k with
      | zero =>
        simp only [List.get?] at h
        have hd : d = if a < 3 then 1000 else 1500 := by
          simpa using h.symm
        simpa using hd
      | succ k0 =>
        simp only [List.get?] at h
        have := ih (a + 1) k0 d h
        have harr : a + 1 + k0 = a + (k0 + 1) := by omega
        rwa [harr] at this

/-! ## Claim C5 -/

/-- C5: the readiness prober is single-flight — a trigger that arrives while a
sequence is in flight changes nothing, performs zero probe calls and returns
"not newly ready", so two quick successive triggers produce one polling
sequence. -/
theorem C5_waitForApi_single_flight (status : ApiStatus) (probes : Nat → Bool) :
    waitForApi true status probes =
      { newlyReady := false, attempts := 0, delays := [],
        statusSets := [], finalStatus := status } :=
  rfl

/-! ## Claim C6 -/

/-- C6: a prober sequence makes at most 12 attempts; it enters `booting` first;
a first success at attempt k stops with `ready` after k+1 calls; exhaustion
ends in `error`; and the recorded delay after attempt k is 1000ms for k < 3,
1500ms after. -/
theorem C6_prober_algorithm (probes : Nat → Bool) (status : ApiStatus) :
    (waitForApi false status probes).attempts ≤ 12 ∧
    (waitForApi false status probes).statusSets.head? = some .booting ∧
    (∀ k, k < 12 → probes k = true → (∀ j, j < k → probes j = false) →
        (waitForApi false status probes).newlyReady = true ∧
        (waitForApi false status probes).finalStatus = .ready ∧
        (waitForApi false status probes).attempts = k + 1) ∧
    ((∀ i, i < 12 → probes i = false) →
        (waitForApi false status probes).newlyReady = false ∧
        (waitForApi false status probes).finalStatus = .error ∧
        (waitForApi false status probes).attempts = 12) ∧
    (∀ k d, (waitForApi false status probes).delays.get? k = some d →
        d = if k < 3 then 1000 else 1500) := by
  refine ⟨?_, ?_, ?_, ?_, ?_⟩
  · simp only [waitForApi, if_neg Bool.false_ne_true]
    exact waitLoop_attempts_le probes 12 0
  · simp [waitForApi]
  · intro k hk hsucc hfail
    have h := waitLoop_first_success probes 12 0 k hk (by simpa using hsucc)
      (fun j hj => by simpa using hfail j hj)
    simp only [waitForApi, if_neg Bool.false_ne_true]
    refine ⟨h.1, ?_, h.2⟩
    simp [h.1]
  · intro hall
    have h := waitLoop_all_fail probes 12 0 (fun i hi => by simpa using hall i hi)
    simp only [waitForApi, if_neg Bool.false_ne_true]
    refine ⟨h.1, ?_, h.2⟩
    simp [h.1]
  · intro k d h
    simp only [waitForApi, if_neg Bool.false_ne_true] at h
    have := waitLoop_delays_get probes 12 0 k d h
    simpa using this

/-- C6 witness: the algorithm theorem applied to a probe oracle that first
succeeds on attempt 4. -/
theorem C6_witness :
    (waitForApi false .idle (fun i => decide (i = 4))).newlyReady = true ∧
    (waitForApi false .idle (fun i => decide (i = 4))).finalStatus = .ready ∧
    (waitForApi false .idle (fun i => decide (i = 4))).attempts = 5 :=
  (C6_prober_algorithm (fun i => decide (i = 4)) .idle).2.2.1 4 (by decide)
    (by decide) (fun j hj => by simp; omega)

/-! ## Claim C7 -/

/-- C7: `logout` always clears the session — whether the remote call succeeds
or fails, token and user (memory and durable storage) are cleared, the
Collection is empty, every View Criteria field is back at its default, and
Availability is idle. -/
theorem C7_logout_always_clears (outcome : Except JsError Unit) (s : AppState) :
    (handleLogout outcome s).token = "" ∧
    (handleLogout outcome s).storedToken = "" ∧
    (handleLogout outcome s).user = none ∧
    (handleLogout outcome s).storedUser = none ∧
    (handleLogout outcome s).rows = [] ∧
    (handleLogout outcome s).term = "" ∧
    (handleLogout outcome s).type = "" ∧
    (handleLogout outcome s).sortBy = "updated" ∧
    (handleLogout outcome s).activeCat = "" ∧
    (handleLogout outcome s).apiStatus = .idle := by
  cases outcome <;> simp [handleLogout, applyAuth]

/-! ## Claim C9 -/

/-- C9: a completed `refresh` always stores a list — a successful fetch whose
payload is not an array stores the empty collection, and an array payload is
stored as is, with Availability set to ready. -/
theorem C9_refresh_collection_always_array (s : AppState) (payload : ListPayload)
    (probes : Nat → Bool) (htok : s.token ≠ "") :
    ((refresh s (.ok payload) probes).1.rows =
        (match payload with | .arr l => l | .notArray => [])) ∧
    (refresh s (.ok ListPayload.notArray) probes).1.rows = [] ∧
    (refresh s (.ok payload) probes).1.apiStatus = .ready := by
  refine ⟨?_, ?_, ?_⟩
  · cases payload <;> simp [refresh, if_neg htok]
  · simp [refresh, if_neg htok]
  · cases payload <;> simp [refresh, if_neg htok]

/-- C9 witness: a non-array payload on a live session yields the empty
collection and a ready availability. -/
theorem C9_witness :
    ((refresh { token := "t" } (.ok ListPayload.notArray) (fun _ => false)).1.rows =
        (match ListPayload.notArray with | .arr l => l | .notArray => ([] : List Review))) ∧
    (refresh { token := "t" } (.ok ListPayload.notArray) (fun _ => false)).1.rows = [] ∧
    (refresh { token := "t" } (.ok ListPayload.notArray) (fun _ => false)).1.apiStatus = .ready :=
  C9_refresh_collection_always_array { token := "t" } ListPayload.notArray
    (fun _ => false) (by decide)

/-! ## Claim C10 -/

/-- A state with non-default content in every field that teardown clears,
used to make concrete teardown instances meaningful. -/
def busyState : AppState :=
  { token := "old-token", storedToken := "old-token",
    user := some "u@example.com", storedUser := some "u@example.com",
    rows := [reviewCoffee], term := "cafe", type := "food", sortBy := "rating",
    activeCat := "Coffee", editing := some (), viewing := some reviewCoffee,
    apiStatus := .ready }

/-- C10: applying an auth result lacking a non-empty token or a user never
stores a partial session — the full teardown branch runs: token and user
cleared from memory and durable storage, Collection emptied, editor and detail
views closed, criteria reset, Availability idle. -/
theorem C10_applyAuth_no_partial_session (s : AppState) (result : Option AuthResult)
    (h : result = none ∨ ∃ r, result = some r ∧ (r.token = "" ∨ r.user = none)) :
    applyAuth result s =
      { s with token := "", storedToken := "", user := none, storedUser := none,
               rows := [], editing := none, term := "", type := "",
               sortBy := "updated", activeCat := "", viewing := none,
               apiStatus := .idle } := by
  rcases h with rfl | ⟨r, rfl, hr⟩
  · rfl
  · rcases hr with hr | hr
    · have he : r.token.isEmpty = true := by rw [hr]; rfl
      simp [applyAuth, he]
    · simp [applyAuth, hr]

/-- C10 witness: a response with a user but an empty token tears a busy state
fully down. -/
theorem C10_witness :
    applyAuth (some { token := "", user := some "u@example.com" }) busyState =
      { busyState with token := "", storedToken := "", user := none,
                       storedUser := none, rows := [], editing := none, term := "",
                       type := "", sortBy := "updated", activeCat := "",
                       viewing := none, apiStatus := .idle } :=
  C10_applyAuth_no_partial_session busyState
    (some { token := "", user := some "u@example.com" })
    (Or.inr ⟨_, rfl, Or.inl rfl⟩)

/-! ## Claim C3 -/

theorem jsIncludes_401 (st b : String) :
    jsIncludes (errMessage (.httpErr 401 st b)) "401" = true := by
  apply jsIncludes_of_decomp _ _ "HTTP " (" " ++ st ++ " - " ++ b)
  show ("HTTP " ++ toString (401 : Nat) ++ " " ++ st ++ " - " ++ b).data
    = "HTTP ".data ++ "401".data ++ (" " ++ st ++ " - " ++ b).data
  simp only [string_data_append, List.append_assoc]
  rfl

/-- A state with a live token, used to instantiate error-path scenarios. -/
def liveState : AppState :=
  { token := "tok", storedToken := "tok", user := some "u@example.com",
    storedUser := some "u@example.com", rows := [reviewCoffee],
    apiStatus := .ready }

/-- C3 counterexample: a fetch failure with HTTP status 500 whose body happens
to contain the digits "401" forces the full session teardown although its
status is not 401 — the code matches the substring `"401"` of the message, not
the status, so teardown is not equivalent to status 401. -/
theorem C3_counterexample :
    (refresh liveState
        (.error (.httpErr 500 "Internal Server Error" "session token 401 invalid"))
        (fun _ => false)).2.teardown = true ∧
    (500 : Nat) ≠ 401 := by
  constructor
  · decide
  · decide

/-- C3 (amended): teardown happens exactly when the error message contains
"401" as a substring (in particular for every status-401 failure, and then no
retry is scheduled); a service-unavailable failure without "401" in its
message engages the prober and schedules exactly one retry iff the prober
newly reports ready; any other failure only surfaces the error and sets
Availability to error; teardown clears the whole session. -/
theorem C3_refresh_error_handling (s : AppState) (err : JsError)
    (probes : Nat → Bool) (htok : s.token ≠ "") :
    ((refresh s (.error err) probes).2.teardown = true ↔
        jsIncludes (errMessage err) "401" = true) ∧
    (∀ st b, err = .httpErr 401 st b →
        (refresh s (.error err) probes).2.teardown = true ∧
        (refresh s (.error err) probes).2.retryScheduled = false) ∧
    (jsIncludes (errMessage err) "401" = false →
        isLikelyBootingError (some err) = true →
        (refresh s (.error err) probes).2.proberEngaged = true ∧
        ((refresh s (.error err) probes).2.retryScheduled = true ↔
          (waitForApi s.apiCheckInFlight s.apiStatus probes).newlyReady = true)) ∧
    (jsIncludes (errMessage err) "401" = false →
        isLikelyBootingError (some err) = false →
        (refresh s (.error err) probes).1.apiStatus = .error ∧
        (refresh s (.error err) probes).2.teardown = false ∧
        (refresh s (.error err) probes).2.retryScheduled = false ∧
        (refresh s (.error err) probes).2.proberEngaged = false) ∧
    ((refresh s (.error err) probes).2.teardown = true →
        (refresh s (.error err) probes).1.token = "" ∧
        (refresh s (.error err) probes).1.user = none ∧
        (refresh s (.error err) probes).1.rows = [] ∧
        (refresh s (.error err) probes).1.term = "" ∧
        (refresh s (.error err) probes).1.type = "" ∧
        (refresh s (.error err) probes).1.sortBy = "updated" ∧
        (refresh s (.error err) probes).1.activeCat = "") := by
  have hbool : (!s.token.isEmpty) = true := by
    have : s.token.isEmpty = false := by
      rcases hb : s.token.isEmpty with _ | _
      · rfl
      · exact absurd ((String.isEmpty_iff s.token).mp hb) htok
    simp [this]
  by_cases h401 : jsIncludes (errMessage err) "401" = true
  · refine ⟨?_, ?_, ?_, ?_, ?_⟩ <;>
      simp [refresh, if_neg htok, h401, applyAuth]
  · have h401f : jsIncludes (errMessage err) "401" = false := by
      simpa using h401
    have h401i : ∀ st b, err = .httpErr 401 st b → False := by
      rintro st b rfl
      rw [jsIncludes_401] at h401f
      cases h401f
    by_cases hboot : isLikelyBootingError (some err) = true
    · by_cases hw : (waitForApi s.apiCheckInFlight s.apiStatus probes).newlyReady = true
      · refine ⟨?_, ?_, ?_, ?_, ?_⟩ <;>
          simp [refresh, if_neg htok, h401f, hboot, hw, hbool]
        exact fun st b he => absurd he (fun hh => h401i st b hh)
      · have hwf : (waitForApi s.apiCheckInFlight s.apiStatus probes).newlyReady = false := by
          simpa using hw
        refine ⟨?_, ?_, ?_, ?_, ?_⟩ <;>
          simp [refresh, if_neg htok, h401f, hboot, hwf, hbool]
        exact fun st b he => absurd he (fun hh => h401i st b hh)
    · have hbootf : isLikelyBootingError (some err) = false := by
        simpa using hboot
      refine ⟨?_, ?_, ?_, ?_, ?_⟩ <;>
        simp [refresh, if_neg htok, h401f, hbootf]
      exact fun st b he => absurd he (fun hh => h401i st b hh)

/-- C3 witness: the amended theorem applied to a live state and a plain 503
failure with an all-failing probe oracle — the prober is engaged and, since it
never newly reports ready, no retry is scheduled. -/
theorem C3_witness :
    (refresh liveState (.error (.httpErr 503 "Service Unavailable" "busy"))
        (fun _ => false)).2.proberEngaged = true ∧
    ((refresh liveState (.error (.httpErr 503 "Service Unavailable" "busy"))
        (fun _ => false)).2.retryScheduled = true ↔
      (waitForApi liveState.apiCheckInFlight liveState.apiStatus
        (fun _ => false)).newlyReady = true) :=
  (C3_refresh_error_handling liveState (.httpErr 503 "Service Unavailable" "busy")
    (fun _ => false) (by decide)).2.2.1 (by decide) (by decide)

/-! ## Claim C4 -/

/-- A state holding a filled-in auth form, about to submit. -/
def authFormState : AppState :=
  { authFormEmail := "a@b.example", authFormPassword := "secret1" }

/-- C4 counterexample: a login failing with HTTP 503 while the prober oracle
reports ready immediately — the prober IS newly ready, yet no retry of the
auth operation is scheduled (the catch block only fires `waitForApi()` and
sets the warming message; the 300ms debounced retry exists only in
`refresh`). -/
theorem C4_counterexample :
    (handleAuthSubmit authFormState (.error (.httpErr 503 "Service Unavailable" ""))
        (fun _ => none) (fun _ => true)).2.retryScheduled = false ∧
    (waitForApi authFormState.apiCheckInFlight authFormState.apiStatus
        (fun _ => true)).newlyReady = true := by
  constructor
  · decide
  · decide

/-- C4 (amended): an auth operation failing with a service-unavailable
condition triggers the Availability Prober (fire-and-forget) and sets the
warming-up message, but never schedules a retry of the auth operation — even
when the prober newly reports ready the user must resubmit; the session is
untouched. -/
theorem C4_auth_failure_triggers_prober_without_retry (s : AppState) (err : JsError)
    (parse : String → Option DetailVal) (probes : Nat → Bool)
    (hvalid : ¬(jsToLower (jsTrim s.authFormEmail) = "" ∨ s.authFormPassword = ""))
    (hboot : isLikelyBootingError (some err) = true) :
    (handleAuthSubmit s (.error err) parse probes).2.proberEngaged = true ∧
    (handleAuthSubmit s (.error err) parse probes).2.retryScheduled = false ∧
    (handleAuthSubmit s (.error err) parse probes).1.authError = .str warmingMessage ∧
    (handleAuthSubmit s (.error err) parse probes).1.token = s.token ∧
    (handleAuthSubmit s (.error err) parse probes).1.user = s.user := by
  refine ⟨?_, ?_, ?_, ?_, ?_⟩ <;>
    simp [handleAuthSubmit, if_neg hvalid, hboot]

/-- C4 witness: the amended theorem applied to a 503 login failure with a
ready prober. -/
theorem C4_witness :
    (handleAuthSubmit authFormState (.error (.httpErr 503 "Service Unavailable" "x"))
        (fun _ => none) (fun _ => true)).2.proberEngaged = true ∧
    (handleAuthSubmit authFormState (.error (.httpErr 503 "Service Unavailable" "x"))
        (fun _ => none) (fun _ => true)).2.retryScheduled = false ∧
    (handleAuthSubmit authFormState (.error (.httpErr 503 "Service Unavailable" "x"))
        (fun _ => none) (fun _ => true)).1.authError = .str warmingMessage ∧
    (handleAuthSubmit authFormState (.error (.httpErr 503 "Service Unavailable" "x"))
        (fun _ => none) (fun _ => true)).1.token = authFormState.token ∧
    (handleAuthSubmit authFormState (.error (.httpErr 503 "Service Unavailable" "x"))
        (fun _ => none) (fun _ => true)).1.user = authFormState.user :=
  C4_auth_failure_triggers_prober_without_retry authFormState
    (.httpErr 503 "Service Unavailable" "x") (fun _ => none) (fun _ => true)
    (by decide) (by decide)

/-! ## Claim C8: regex lemmas -/

theorem beq_dash_false {p : Char → Bool} (hp : p '-' = false) {c : Char}
    (h : p c = true) : (c == '-') = false := by
  cases hbeq : (c == '-') with
  | false => rfl
  | true =>
    have hc : c = '-' := eq_of_beq hbeq
    rw [hc, hp] at h
    cases h

theorem takeWhile_append_of_all {p : Char → Bool} :
    ∀ (l1 : List Char) (x : Char) (l2 : List Char),
      (∀ c ∈ l1, p c = true) → p x = false →
      (l1 ++ x :: l2).takeWhile p = l1 ∧ (l1 ++ x :: l2).dropWhile p = x :: l2 := by
  intro l1
  induction l1 with
  | nil =>
    intro x l2 _ hx
    simp [List.takeWhile_cons, List.dropWhile_cons, hx]
  | cons a l1 ih =>
    intro x l2 hall hx
    have ha : p a = true := hall a (List.mem_cons_self a l1)
    have := ih x l2 (fun c hc => hall c (List.mem_cons_of_mem a hc)) hx
    simp [List.takeWhile_cons, List.dropWhile_cons, ha, this.1, this.2]

theorem plusThen_append (p : Char → Bool) (k : List Char → Bool) :
    ∀ (xs rest : List Char), xs ≠ [] → (∀ c ∈ xs, p c = true) → k rest = true →
      plusThen p k (xs ++ rest) = true := by
  intro xs
  induction xs with
  | nil => intro rest h; cases h rfl
  | cons x xs ih =>
    intro rest _ hall hk
    simp only [List.cons_append, plusThen, Bool.and_eq_true, Bool.or_eq_true]
    refine ⟨hall x (List.mem_cons_self x xs), ?_⟩
    cases xs with
    | nil => exact Or.inl (by simpa using hk)
    | cons y ys =>
      exact Or.inr (ih rest (by simp) (fun c hc => hall c (List.mem_cons_of_mem x hc)) hk)

theorem matchesStatusSeg_of (ds st : List Char) (hds : ds ≠ [])
    (hdd : ∀ c ∈ ds, c.isDigit = true) (hst : st ≠ [])
    (hsc : ∀ c ∈ st, httpClassChar c = true) :
    matchesStatusSeg (' ' :: (ds ++ ' ' :: (st ++ [' ']))) = true := by
  unfold matchesStatusSeg
  have h4 : plusThen jsWs List.isEmpty [' '] = true := by decide
  have h3 : plusThen httpClassChar (plusThen jsWs List.isEmpty) (st ++ [' ']) = true :=
    plusThen_append _ _ st [' '] hst hsc h4
  have h2 : plusThen jsWs (plusThen httpClassChar (plusThen jsWs List.isEmpty))
      (' ' :: (st ++ [' '])) = true := by
    have := plusThen_append jsWs _ [' '] (st ++ [' ']) (by simp)
      (by intro c hc; simp at hc; subst hc; rfl) h3
    simpa using this
  have h1 : plusThen Char.isDigit
      (plusThen jsWs (plusThen httpClassChar (plusThen jsWs List.isEmpty)))
      (ds ++ ' ' :: (st ++ [' '])) = true :=
    plusThen_append _ _ ds _ hds hdd h2
  have h0 := plusThen_append jsWs _ [' '] (ds ++ ' ' :: (st ++ [' '])) (by simp)
    (by intro c hc; simp at hc; subst hc; rfl) h1
  simpa using h0

theorem stripHttpHead_match (ds st b : String) (hds : ds.data ≠ [])
    (hdd : ∀ c ∈ ds.data, c.isDigit = true) (hst : st.data ≠ [])
    (hsc : ∀ c ∈ st.data, httpClassChar c = true) :
    stripHttpHead ("HTTP " ++ ds ++ " " ++ st ++ " - " ++ b) =
      ⟨b.data.dropWhile jsWs⟩ := by
  have hdata : ("HTTP " ++ ds ++ " " ++ st ++ " - " ++ b).data
      = 'H' :: 'T' :: 'T' :: 'P'
          :: (' ' :: (ds.data ++ ' ' :: (st.data ++ [' ']))
              ++ '-' :: ' ' :: b.data) := by
    simp [string_data_append]
  have hallpre : ∀ c ∈ ' ' :: (ds.data ++ ' ' :: (st.data ++ [' '])),
      (!(c == '-')) = true := by
    intro c hc
    rcases List.mem_cons.mp hc with rfl | hc
    · rfl
    rcases List.mem_append.mp hc with hc | hc
    · rw [beq_dash_false (by decide) (hdd c hc)]; rfl
    rcases List.mem_cons.mp hc with rfl | hc
    · rfl
    rcases List.mem_append.mp hc with hc | hc
    · rw [beq_dash_false (by decide) (hsc c hc)]; rfl
    · rcases List.mem_singleton.mp hc with rfl; rfl
  have hdash : (!('-' == '-')) = false := by decide
  have htk := takeWhile_append_of_all (' ' :: (ds.data ++ ' ' :: (st.data ++ [' '])))
    '-' (' ' :: b.data) hallpre hdash
  rw [stripHttpHead, hdata]
  show (⟨stripHttpHeadList _⟩ : String) = _
  rw [stripHttpHeadList]
  rw [if_pos ?side]
  case side =>
    refine (Bool.and_eq_true _ _).mpr ⟨(Bool.and_eq_true _ _).mpr
      ⟨(Bool.and_eq_true _ _).mpr ⟨(Bool.and_eq_true _ _).mpr
        ⟨(Bool.and_eq_true _ _).mpr ⟨rfl, rfl⟩, rfl⟩, rfl⟩, ?_⟩, ?_⟩
    · exact List.elem_eq_true_of_mem (by simp)
    · rw [htk.1]
      exact matchesStatusSeg_of ds.data st.data hds hdd hst hsc
  rw [htk.2]
  show (⟨List.dropWhile jsWs (' ' :: b.data)⟩ : String) = _
  simp [List.dropWhile_cons, jsWs]

/-! ## Claim C8 -/

/-- C8 counterexample: a failing login with status 500, an EMPTY status text
(as under HTTP/2, where `res.statusText` is always empty) and a non-JSON body.
The claim requires the surfaced message to be the body with the transport head
stripped, but the code's pattern needs a non-empty letters/spaces status text,
so the full raw message is surfaced instead. -/
theorem C8_counterexample :
    (handleAuthSubmit authFormState (.error (.httpErr 500 "" "Internal Server Error"))
        (fun _ => none) (fun _ => false)).1.authError
      = .str "HTTP 500  - Internal Server Error" ∧
    ("HTTP 500  - Internal Server Error" : String) ≠ "Internal Server Error" := by
  constructor
  · decide
  · decide

/-- C8 (amended): a failing login/register never changes the session (token,
user, and their durable mirrors); the surfaced value prefers the structured
detail extracted from the JSON in the message — the first message when detail
is an array, except that a first element whose `msg` is falsy surfaces the RAW
`detail[0]` object itself, never stripped — and otherwise (detail falsy) it is
the raw message with the leading "HTTP code text - " head stripped exactly
when the head matches the code's pattern — in particular stripped whenever the
status text is non-empty and consists of ASCII letters and spaces, yielding
the trimmed body. -/
theorem C8_auth_failure_session_and_message (s : AppState) (err : JsError)
    (parse : String → Option DetailVal) (probes : Nat → Bool)
    (hvalid : ¬(jsToLower (jsTrim s.authFormEmail) = "" ∨ s.authFormPassword = "")) :
    (handleAuthSubmit s (.error err) parse probes).1.token = s.token ∧
    (handleAuthSubmit s (.error err) parse probes).1.user = s.user ∧
    (handleAuthSubmit s (.error err) parse probes).1.storedToken = s.storedToken ∧
    (handleAuthSubmit s (.error err) parse probes).1.storedUser = s.storedUser ∧
    (∀ d, isLikelyBootingError (some err) = false →
        extractDetail parse (errMessage err) = .str d → d ≠ "" →
        (handleAuthSubmit s (.error err) parse probes).1.authError = .str d) ∧
    (∀ m, isLikelyBootingError (some err) = false →
        extractDetail parse (errMessage err) = .rawObj m →
        (handleAuthSubmit s (.error err) parse probes).1.authError = .rawObj m) ∧
    (isLikelyBootingError (some err) = false →
        jsTruthy (extractDetail parse (errMessage err)) = false →
        (handleAuthSubmit s (.error err) parse probes).1.authError =
          .str (if jsTrim (stripHttpHead (errMessage err)) = "" then "Unable to process request."
                else jsTrim (stripHttpHead (errMessage err)))) ∧
    (∀ n st b, err = .httpErr n st b →
        (toString n).data ≠ [] → (∀ c ∈ (toString n).data, c.isDigit = true) →
        st.data ≠ [] → (∀ c ∈ st.data, httpClassChar c = true) →
        stripHttpHead (errMessage err) = ⟨b.data.dropWhile jsWs⟩) := by
  refine ⟨?_, ?_, ?_, ?_, ?_, ?_, ?_, ?_⟩
  · by_cases hboot : isLikelyBootingError (some err) = true <;>
      simp [handleAuthSubmit, if_neg hvalid, hboot]
  · by_cases hboot : isLikelyBootingError (some err) = true <;>
      simp [handleAuthSubmit, if_neg hvalid, hboot]
  · by_cases hboot : isLikelyBootingError (some err) = true <;>
      simp [handleAuthSubmit, if_neg hvalid, hboot]
  · by_cases hboot : isLikelyBootingError (some err) = true <;>
      simp [handleAuthSubmit, if_neg hvalid, hboot]
  · intro d hbootf hdet hdne
    simp [handleAuthSubmit, if_neg hvalid, hbootf, hdet, jsTruthy, hdne]
  · intro m hbootf hdet
    simp [handleAuthSubmit, if_neg hvalid, hbootf, hdet, jsTruthy]
  · intro hbootf hfalsy
    have hstep : (handleAuthSubmit s (.error err) parse probes).1.authError =
        (if jsTruthy (.str (jsTrim (stripHttpHead (errMessage err)))) then
          JsTextVal.str (jsTrim (stripHttpHead (errMessage err)))
        else .str "Unable to process request.") := by
      simp [handleAuthSubmit, if_neg hvalid, hbootf, hfalsy]
    rw [hstep]
    by_cases hx : jsTrim (stripHttpHead (errMessage err)) = ""
    · rw [hx]
      simp [jsTruthy]
    · rw [if_pos (by simp [jsTruthy, hx]), if_neg hx]
  · rintro n st b rfl hds hdd hst hsc
    exact stripHttpHead_match (toString n) st b hds hdd hst hsc

/-- C8 witness: a plain 404 failure with a standard status text surfaces the
stripped, trimmed body. -/
theorem C8_witness :
    (handleAuthSubmit authFormState (.error (.httpErr 404 "Not Found" "nope"))
        (fun _ => none) (fun _ => false)).1.authError = .str "nope" := by
  have h := C8_auth_failure_session_and_message authFormState
    (.httpErr 404 "Not Found" "nope") (fun _ => none) (fun _ => false) (by decide)
  have h2 := h.2.2.2.2.2.2.1 (by decide) (by decide)
  rw [h2]
  decide

end RevuMe
